import Mathlib

/-!
Verification of the autonomous replenishment workflow engine of the
AI-supplychain repository.

The repository snapshot contains the frontend (TypeScript/React) and the
engine's documentation and API specification; the Django backend modules that
implement the engine itself (`app/signals.py`, `logibot/analyzer.py`,
`logibot/agent.py`, `logibot/composio_orchestrator.py`) are not included.
Definitions below are therefore of two kinds:

* direct shallow embeddings of frontend source code
  (`real-time-notifications`, the `triggerInventoryCheck` target selection in
  the LOGI-BOT dashboard, the `AnimatedWorkflow` component, the
  `useLogiBotAutoTrigger` hook), and
* models of the missing backend components, each marked
  `Modelled from the spec:` in its doc comment and built faithfully from the
  specification's wording.
-/

namespace SupplyChain

/-! ## Frontend: real-time notification feed (`real-time-notifications`) -/

/-- An entry of the real-time notification feed (interface `RealTimeUpdate`
in the `RealTimeNotifications` component). -/
structure RealTimeUpdate where
  id : String
  title : String
  message : String
  severity : String
  deriving Repr, DecidableEq

/-- Inserting one update into the feed.  Both the simulated real-time
interval and `addDemoUpdates` run
`setUpdates(prev => [newUpdate, ...prev.slice(0, 9)])`:
the new update is prepended and at most the first 9 previous entries are
kept. -/
def pushUpdate (u : RealTimeUpdate) (prev : List RealTimeUpdate) :
    List RealTimeUpdate :=
  u :: prev.take 9

/-! ## Frontend: target-product selection (`triggerInventoryCheck`) -/

/-- A product as consumed by the LOGI-BOT dashboard: only the
`available_quantity` field and the name matter to the selection logic. -/
structure DashProduct where
  name : String
  available_quantity : Int
  deriving Repr, DecidableEq

/-- One step of the JS `reduce` in `triggerInventoryCheck`:
`product.available_quantity < lowest.available_quantity ? product : lowest`. -/
def pickLower (lowest product : DashProduct) : DashProduct :=
  if product.available_quantity < lowest.available_quantity then product
  else lowest

/-- JS `array.reduce(pickLower)` without an initial value: the first element
seeds the accumulator; `none` for an empty array. -/
def reduceLowest : List DashProduct → Option DashProduct
  | [] => none
  | p :: ps => some (ps.foldl pickLower p)

/-- The target-product selection of `triggerInventoryCheck`: filter the
products with `available_quantity <= 10`; if any exist, reduce those to the
one with the lowest stock, otherwise reduce the whole list. -/
def selectTargetProduct (products : List DashProduct) : Option DashProduct :=
  let lowStockProducts :=
    products.filter (fun p => decide (p.available_quantity ≤ 10))
  if 0 < lowStockProducts.length then reduceLowest lowStockProducts
  else reduceLowest products

lemma pickLower_le_left (a p : DashProduct) :
    (pickLower a p).available_quantity ≤ a.available_quantity := by
  unfold pickLower
  split <;> omega

lemma pickLower_le_right (a p : DashProduct) :
    (pickLower a p).available_quantity ≤ p.available_quantity := by
  unfold pickLower
  split <;> omega

lemma foldl_pickLower_le (ps : List DashProduct) (a : DashProduct) :
    (ps.foldl pickLower a).available_quantity ≤ a.available_quantity ∧
      ∀ q ∈ ps, (ps.foldl pickLower a).available_quantity ≤
        q.available_quantity := by
  induction ps generalizing a with
  | nil => exact ⟨le_refl _, by simp⟩
  | cons p ps ih =>
    obtain ⟨h1, h2⟩ := ih (pickLower a p)
    refine ⟨le_trans h1 (pickLower_le_left a p), ?_⟩
    intro q hq
    rcases List.mem_cons.mp hq with rfl | hq
    · exact le_trans h1 (pickLower_le_right a q)
    · exact h2 q hq

lemma foldl_pickLower_mem (ps : List DashProduct) (a : DashProduct) :
    ps.foldl pickLower a = a ∨ ps.foldl pickLower a ∈ ps := by
  induction ps generalizing a with
  | nil => exact Or.inl rfl
  | cons p ps ih =>
    have hstep : pickLower a p = a ∨ pickLower a p = p := by
      unfold pickLower
      split
      · exact Or.inr rfl
      · exact Or.inl rfl
    rcases ih (pickLower a p) with h | h
    · rw [List.foldl_cons, h]
      rcases hstep with h2 | h2
      · exact Or.inl h2
      · exact Or.inr (by rw [h2]; exact List.mem_cons_self p ps)
    · exact Or.inr (List.mem_cons_of_mem p h)

lemma reduceLowest_min (products : List DashProduct) (p : DashProduct)
    (h : reduceLowest products = some p) :
    p ∈ products ∧
      ∀ q ∈ products, p.available_quantity ≤ q.available_quantity := by
  match products with
  | [] => simp [reduceLowest] at h
  | a :: ps =>
    simp only [reduceLowest, Option.some.injEq] at h
    subst h
    constructor
    · rcases foldl_pickLower_mem ps a with h | h
      · rw [h]; exact List.mem_cons_self a ps
      · exact List.mem_cons_of_mem a h
    · intro q hq
      rcases List.mem_cons.mp hq with rfl | hq
      · exact (foldl_pickLower_le ps q).1
      · exact (foldl_pickLower_le ps a).2 q hq

/-- Claim C9: whenever `triggerInventoryCheck` selects a target product from
a company's product list, the selected product has `available_quantity` less
than or equal to that of every other product in the list — the worst
shortage is processed first. -/
theorem selectTargetProduct_worst_first (products : List DashProduct)
    (p : DashProduct) (h : selectTargetProduct products = some p) :
    ∀ q ∈ products, p.available_quantity ≤ q.available_quantity := by
  unfold selectTargetProduct at h
  set low := products.filter (fun p => decide (p.available_quantity ≤ 10))
    with hlow
  by_cases hcase : 0 < low.length
  · rw [if_pos hcase] at h
    obtain ⟨hmem, hmin⟩ := reduceLowest_min low p h
    have hp10 : p.available_quantity ≤ 10 := by
      have := List.mem_filter.mp (hlow ▸ hmem)
      exact of_decide_eq_true this.2
    intro q hq
    by_cases hq10 : q.available_quantity ≤ 10
    · exact hmin q (List.mem_filter.mpr ⟨hq, decide_eq_true hq10⟩)
    · omega
  · rw [if_neg hcase] at h
    exact (reduceLowest_min products p h).2

/-- Witness for C9: on the concrete list below, product B (5 units) is
selected and its stock is minimal. -/
theorem selectTargetProduct_worst_first_witness :
    selectTargetProduct [⟨"A", 8⟩, ⟨"B", 5⟩, ⟨"C", 30⟩] = some ⟨"B", 5⟩ ∧
      ∀ q ∈ [(⟨"A", 8⟩ : DashProduct), ⟨"B", 5⟩, ⟨"C", 30⟩],
        (⟨"B", 5⟩ : DashProduct).available_quantity ≤
          q.available_quantity :=
  ⟨by decide, selectTargetProduct_worst_first _ _ (by decide)⟩

/-- Claim C10: every insertion into the real-time feed prepends the new
update and keeps at most the 9 previous entries, so the resulting feed holds
at most 10 updates with the most recent first. -/
theorem pushUpdate_bounded_most_recent_first (u : RealTimeUpdate)
    (prev : List RealTimeUpdate) :
    (pushUpdate u prev).length ≤ 10 ∧
      (pushUpdate u prev).head? = some u ∧
      (pushUpdate u prev).tail = prev.take 9 := by
  refine ⟨?_, rfl, rfl⟩
  simp only [pushUpdate, List.length_cons, List.length_take]
  omega

/-! ## Engine model

The engine itself (Alert Manager, Inventory Monitor, Orchestrator) lives in
the Django backend, which is not part of the snapshot.  The definitions in
this section are modelled from the spec, as their doc comments record. -/

/-- Alert priorities (spec §3 / Priority Levels in the README). -/
inductive Priority
  | critical
  | high
  | medium
  | low
  deriving Repr, DecidableEq

/-- Alert lifecycle statuses (spec §3: detected, analyzing, resolved,
ignored). -/
inductive AlertStatus
  | detected
  | analyzing
  | resolved
  | ignored
  deriving Repr, DecidableEq

/-- Execution statuses (spec §3).  `partialSuccess` models the source status
string `partial_success`. -/
inductive ExecStatus
  | running
  | completed
  | partialSuccess
  | failed
  deriving Repr, DecidableEq

/-- An Alert record (spec §3). -/
structure Alert where
  id : Nat
  productId : Nat
  companyId : Nat
  priority : Priority
  status : AlertStatus
  currentInventory : Int
  threshold : Int
  deriving Repr, DecidableEq

/-- An Execution record (spec §3): one run of the pipeline for one Alert. -/
structure Execution where
  id : Nat
  alertId : Nat
  status : ExecStatus
  deriving Repr, DecidableEq

/-- The per-company threshold configuration read by the Inventory Monitor
(spec §3; only the critical level matters to the claims). -/
structure AgentConfig where
  criticalLevel : Int
  deriving Repr, DecidableEq

/-- The engine-owned state: the append-only Alert and Execution ledgers plus
fresh-id counters. -/
structure EngineState where
  alerts : List Alert
  executions : List Execution
  nextAlertId : Nat
  nextExecId : Nat
  deriving Repr, DecidableEq

/-- An Alert is active for a product/company pair when it matches the pair
and is non-resolved (the dedup invariant counts `detected`, `analyzing` and
`ignored` alerts). -/
def Alert.activeFor (pid cid : Nat) (a : Alert) : Bool :=
  a.productId == pid && a.companyId == cid && !(a.status == .resolved)

/-- The Alert Manager query used by the Inventory Monitor: the active (that
is, non-resolved) Alert for a product/company pair, if any. -/
def activeAlert (s : EngineState) (pid cid : Nat) : Option Alert :=
  s.alerts.find? (Alert.activeFor pid cid)

/-- Number of active alerts for one product/company pair. -/
def activeCount (s : EngineState) (pid cid : Nat) : Nat :=
  s.alerts.countP (Alert.activeFor pid cid)

/-- Number of Executions recorded for one Alert. -/
def execCount (s : EngineState) (aid : Nat) : Nat :=
  s.executions.countP (fun e => e.alertId == aid)

/-- The breach signal emitted by the Inventory Monitor (spec §4.1). -/
structure BreachSignal where
  productId : Nat
  companyId : Nat
  availableQuantity : Int
  threshold : Int
  priority : Priority
  deriving Repr, DecidableEq

/-- A monitor output: either a breach signal or a recovery signal. -/
inductive MonitorSignal
  | breach (b : BreachSignal)
  | recovery (productId companyId : Nat)
  deriving Repr, DecidableEq

/-- Modelled from the spec: the Inventory Monitor (§4.1), whose backend
implementation (`app/signals.py`) is not in the snapshot.  For one
observation it emits a `BreachSignal` with priority `critical` whenever
`availableQuantity <= criticalLevel`; it does not re-emit while a
non-resolved Alert already exists for the pair; and when the quantity rises
back above the threshold for a product with an active Alert it emits a
`RecoverySignal` instead. -/
def monitorSignal (cfg : AgentConfig) (s : EngineState) (pid cid : Nat)
    (qty : Int) : Option MonitorSignal :=
  if qty ≤ cfg.criticalLevel then
    if (activeAlert s pid cid).isSome then none
    else some (.breach ⟨pid, cid, qty, cfg.criticalLevel, .critical⟩)
  else
    if (activeAlert s pid cid).isSome then some (.recovery pid cid)
    else none

/-- The Alert created from a breach signal: fresh id, status `detected`. -/
def newAlert (s : EngineState) (b : BreachSignal) : Alert :=
  { id := s.nextAlertId
    productId := b.productId
    companyId := b.companyId
    priority := b.priority
    status := .detected
    currentInventory := b.availableQuantity
    threshold := b.threshold }

/-- The Alert Manager's `onRecovery` update of a single record: a matching
`detected` or `analyzing` Alert becomes `resolved`; everything else is left
unchanged (the `ignored` manual-override state is outside the automatic
`detected → analyzing → resolved` path). -/
def resolveAlert (pid cid : Nat) (a : Alert) : Alert :=
  if a.productId == pid && a.companyId == cid &&
      (a.status == .detected || a.status == .analyzing) then
    { a with status := .resolved }
  else a

/-- Modelled from the spec: processing one inventory observation (§4.1 and
§4.2).  A breach signal makes the Alert Manager append a fresh `detected`
Alert (`onBreach`); a recovery signal resolves the matching active Alert
(`onRecovery`, idempotent); no signal leaves the state unchanged.  In no
case are Executions touched. -/
def observe (cfg : AgentConfig) (s : EngineState) (pid cid : Nat)
    (qty : Int) : EngineState :=
  match monitorSignal cfg s pid cid qty with
  | some (.breach b) =>
      { s with
        alerts := s.alerts ++ [newAlert s b]
        nextAlertId := s.nextAlertId + 1 }
  | some (.recovery p c) => { s with alerts := s.alerts.map (resolveAlert p c) }
  | none => s

/-- The engine's error taxonomy (spec §7), restricted to the errors the
claims mention. -/
inductive EngineError
  | duplicateAlert
  | invalidTransition
  | executionAlreadyExists
  deriving Repr, DecidableEq

/-- Whether any Execution (running or terminal) exists for an Alert. -/
def hasExecutionFor (s : EngineState) (aid : Nat) : Bool :=
  s.executions.any (fun e => e.alertId == aid)

/-- The Alert Manager's `markAnalyzing` update of a single record: the legal
transition is `detected → analyzing` only. -/
def markAnalyzing (aid : Nat) (a : Alert) : Alert :=
  if a.id == aid && a.status == .detected then { a with status := .analyzing }
  else a

/-- Modelled from the spec: invoking the Orchestrator for an Alert (§4.5 and
§4.2).  If any Execution already exists for the Alert the call is rejected
with `ExecutionAlreadyExistsError` — exactly one Execution per Alert,
enforced at creation time.  Otherwise the Alert must be `detected`
(`markAnalyzing`, else `InvalidTransitionError`); on success a fresh
`running` Execution is appended and the Alert becomes `analyzing`. -/
def startExecution (s : EngineState) (aid : Nat) :
    Except EngineError EngineState :=
  if hasExecutionFor s aid then .error .executionAlreadyExists
  else
    match s.alerts.find? (fun a => a.id == aid && a.status == .detected) with
    | none => .error .invalidTransition
    | some _ =>
        .ok
          { s with
            alerts := s.alerts.map (markAnalyzing aid)
            executions := s.executions ++ [⟨s.nextExecId, aid, .running⟩]
            nextExecId := s.nextExecId + 1 }

/-- Updating one Execution record to a terminal outcome. -/
def setExecStatus (eid : Nat) (st : ExecStatus) (e : Execution) : Execution :=
  if e.id == eid then { e with status := st } else e

/-- Modelled from the spec: when every stage-3 sub-step has reached a
terminal state the Orchestrator records the Execution's overall outcome
(§4.5).  The Orchestrator does not itself resolve the Alert, so the Alert
ledger is untouched. -/
def completeExecution (s : EngineState) (eid : Nat) (outcome : ExecStatus) :
    EngineState :=
  { s with executions := s.executions.map (setExecStatus eid outcome) }

/-- The manual-override update of a single record: `detected → ignored`
(spec §4.2). -/
def ignoreAlertRec (aid : Nat) (a : Alert) : Alert :=
  if a.id == aid && a.status == .detected then { a with status := .ignored }
  else a

/-- Modelled from the spec: human dismissal of a `detected` Alert. -/
def ignoreAlert (s : EngineState) (aid : Nat) : EngineState :=
  { s with alerts := s.alerts.map (ignoreAlertRec aid) }

/-- The events driving the engine. -/
inductive Event
  | observe (pid cid : Nat) (qty : Int)
  | start (aid : Nat)
  | complete (eid : Nat) (outcome : ExecStatus)
  | ignore (aid : Nat)
  deriving Repr, DecidableEq

/-- One engine step.  A rejected Orchestrator invocation leaves the state
unchanged (the error is logged, not applied). -/
def step (cfg : AgentConfig) (s : EngineState) : Event → EngineState
  | .observe pid cid qty => observe cfg s pid cid qty
  | .start aid =>
      match startExecution s aid with
      | .ok s2 => s2
      | .error _ => s
  | .complete eid outcome => completeExecution s eid outcome
  | .ignore aid => ignoreAlert s aid

/-- The engine's initial state: empty ledgers. -/
def initState : EngineState := ⟨[], [], 0, 0⟩

/-- Running the engine over a sequence of events from the initial state;
the reachable states are exactly the values of `run`. -/
def run (cfg : AgentConfig) (evs : List Event) : EngineState :=
  evs.foldl (step cfg) initState

/-! ## Generic counting lemmas -/

lemma countP_map_le_of_imp {α : Type} (f : α → α) (p : α → Bool) :
    ∀ l : List α, (∀ a ∈ l, p (f a) = true → p a = true) →
      (l.map f).countP p ≤ l.countP p := by
  intro l
  induction l with
  | nil => intro _; simp
  | cons a l ih =>
    intro h
    have hl := ih fun x hx => h x (List.mem_cons_of_mem a hx)
    simp only [List.map_cons, List.countP_cons]
    by_cases hfa : p (f a) = true
    · have hpa := h a (List.mem_cons_self a l) hfa
      rw [if_pos hfa, if_pos hpa]
      omega
    · rw [if_neg hfa]
      split <;> omega

lemma countP_map_eq_of_iff {α : Type} (f : α → α) (p : α → Bool) :
    ∀ l : List α, (∀ a ∈ l, p (f a) = p a) →
      (l.map f).countP p = l.countP p := by
  intro l
  induction l with
  | nil => intro _; simp
  | cons a l ih =>
    intro h
    have hl := ih fun x hx => h x (List.mem_cons_of_mem a hx)
    simp only [List.map_cons, List.countP_cons, hl,
      h a (List.mem_cons_self a l)]

lemma forall_mem_map_of_pres {α : Type} {f : α → α} {g : α → Nat}
    (hg : ∀ a, g (f a) = g a) (l : List α) (n : Nat)
    (h : ∀ a ∈ l, g a < n) : ∀ b ∈ l.map f, g b < n := by
  intro b hb
  obtain ⟨a, ha, rfl⟩ := List.mem_map.mp hb
  rw [hg a]
  exact h a ha

/-! ## Preservation facts about the record updates -/

lemma resolveAlert_id (p c : Nat) (a : Alert) :
    (resolveAlert p c a).id = a.id := by
  unfold resolveAlert
  split <;> rfl

lemma resolveAlert_active_imp (p c pid cid : Nat) (a : Alert) :
    Alert.activeFor pid cid (resolveAlert p c a) = true →
      Alert.activeFor pid cid a = true := by
  unfold resolveAlert
  split
  · intro h
    simp [Alert.activeFor] at h
  · exact id

lemma markAnalyzing_id (aid : Nat) (a : Alert) :
    (markAnalyzing aid a).id = a.id := by
  unfold markAnalyzing
  split <;> rfl

lemma markAnalyzing_active (aid pid cid : Nat) (a : Alert) :
    Alert.activeFor pid cid (markAnalyzing aid a) =
      Alert.activeFor pid cid a := by
  unfold markAnalyzing
  split
  · rename_i h
    have hst : a.status = .detected := by
      have := (Bool.and_eq_true _ _).mp h
      exact eq_of_beq this.2
    simp only [Alert.activeFor, hst]
    rfl
  · rfl

lemma ignoreAlertRec_id (aid : Nat) (a : Alert) :
    (ignoreAlertRec aid a).id = a.id := by
  unfold ignoreAlertRec
  split <;> rfl

lemma ignoreAlertRec_active (aid pid cid : Nat) (a : Alert) :
    Alert.activeFor pid cid (ignoreAlertRec aid a) =
      Alert.activeFor pid cid a := by
  unfold ignoreAlertRec
  split
  · rename_i h
    have hst : a.status = .detected := by
      have := (Bool.and_eq_true _ _).mp h
      exact eq_of_beq this.2
    simp only [Alert.activeFor, hst]
    rfl
  · rfl

lemma setExecStatus_id (eid : Nat) (st : ExecStatus) (e : Execution) :
    (setExecStatus eid st e).id = e.id := by
  unfold setExecStatus
  split <;> rfl

lemma setExecStatus_alertId (eid : Nat) (st : ExecStatus) (e : Execution) :
    (setExecStatus eid st e).alertId = e.alertId := by
  unfold setExecStatus
  split <;> rfl

/-! ## The engine invariant and its preservation -/

/-- The engine invariant: the dedup invariant (at most one non-resolved
Alert per product/company pair), at most one Execution per Alert, and
freshness of the id counters. -/
structure Inv (s : EngineState) : Prop where
  dedup : ∀ pid cid, activeCount s pid cid ≤ 1
  oneExec : ∀ aid, execCount s aid ≤ 1
  alertFresh : ∀ a ∈ s.alerts, a.id < s.nextAlertId
  execFresh : ∀ e ∈ s.executions, e.id < s.nextExecId

lemma inv_init : Inv initState := by
  refine ⟨?_, ?_, ?_, ?_⟩ <;> intros <;> simp_all [initState, activeCount,
    execCount]

lemma activeAlert_none_count (s : EngineState) (pid cid : Nat)
    (h : activeAlert s pid cid = none) : activeCount s pid cid = 0 := by
  unfold activeAlert at h
  unfold activeCount
  rw [List.countP_eq_zero]
  intro a ha
  have := List.find?_eq_none.mp h a ha
  simpa using this

lemma inv_observe (cfg : AgentConfig) (s : EngineState) (pid cid : Nat)
    (qty : Int) (hs : Inv s) : Inv (observe cfg s pid cid qty) := by
  unfold observe monitorSignal
  by_cases hq : qty ≤ cfg.criticalLevel
  · rw [if_pos hq]
    by_cases hact : (activeAlert s pid cid).isSome
    · rw [if_pos hact]
      exact hs
    · rw [if_neg hact]
      have hnone : activeAlert s pid cid = none :=
        Option.not_isSome_iff_eq_none.mp hact
      have hzero := activeAlert_none_count s pid cid hnone
      refine ⟨?_, hs.oneExec, ?_, hs.execFresh⟩
      · intro pid2 cid2
        unfold activeCount at hzero ⊢
        simp only [List.countP_append]
        by_cases hmatch :
            Alert.activeFor pid2 cid2
              (newAlert s ⟨pid, cid, qty, cfg.criticalLevel, .critical⟩) =
              true
        · have hpc : pid2 = pid ∧ cid2 = cid := by
            simp only [Alert.activeFor, newAlert, Bool.and_eq_true,
              beq_iff_eq] at hmatch
            exact ⟨hmatch.1.1.symm, hmatch.1.2.symm⟩
          obtain ⟨rfl, rfl⟩ := hpc
          simp [hzero, List.countP_cons, hmatch]
        · have := hs.dedup pid2 cid2
          unfold activeCount at this
          rw [List.countP_cons, List.countP_nil, if_neg hmatch]
          omega
      · intro a ha
        rcases List.mem_append.mp ha with ha | ha
        · exact Nat.lt_succ_of_lt (hs.alertFresh a ha)
        · rcases List.mem_singleton.mp ha with rfl
          exact Nat.lt_succ_self _
  · rw [if_neg hq]
    by_cases hact : (activeAlert s pid cid).isSome
    · rw [if_pos hact]
      refine ⟨?_, hs.oneExec, ?_, hs.execFresh⟩
      · intro pid2 cid2
        unfold activeCount
        calc (s.alerts.map (resolveAlert pid cid)).countP
              (Alert.activeFor pid2 cid2)
            ≤ s.alerts.countP (Alert.activeFor pid2 cid2) :=
              countP_map_le_of_imp _ _ _
                fun a _ => resolveAlert_active_imp pid cid pid2 cid2 a
          _ ≤ 1 := hs.dedup pid2 cid2
      · exact forall_mem_map_of_pres (resolveAlert_id pid cid) s.alerts
          s.nextAlertId hs.alertFresh
    · rw [if_neg hact]
      exact hs

lemma inv_startExecution (s : EngineState) (aid : Nat) (s2 : EngineState)
    (hs : Inv s) (h : startExecution s aid = .ok s2) : Inv s2 := by
  unfold startExecution at h
  by_cases hex : hasExecutionFor s aid
  · rw [if_pos hex] at h
    exact absurd h (by simp)
  · rw [if_neg hex] at h
    rcases hfind : s.alerts.find?
        (fun a => a.id == aid && a.status == .detected) with _ | a
    · rw [hfind] at h
      exact absurd h (by simp)
    · rw [hfind] at h
      injection h with h2
      subst h2
      have hzero : execCount s aid = 0 := by
        unfold execCount
        rw [List.countP_eq_zero]
        intro e he
        have : ¬(s.executions.any fun e => e.alertId == aid) = true := by
          simpa [hasExecutionFor] using hex
        rw [List.any_eq_true] at this
        push_neg at this
        simpa using this e he
      refine ⟨?_, ?_, ?_, ?_⟩
      · intro pid2 cid2
        unfold activeCount
        have := countP_map_eq_of_iff (markAnalyzing aid)
          (Alert.activeFor pid2 cid2) s.alerts
          fun a _ => markAnalyzing_active aid pid2 cid2 a
        simp only [this]
        exact hs.dedup pid2 cid2
      · intro aid2
        unfold execCount
        simp only [List.countP_append]
        by_cases heq : aid2 = aid
        · subst heq
          unfold execCount at hzero
          simp [hzero, List.countP_cons]
        · have := hs.oneExec aid2
          unfold execCount at this
          have hne : ¬(((⟨s.nextExecId, aid, .running⟩ : Execution).alertId
              == aid2) = true) := by
            simp
            omega
          rw [List.countP_cons, List.countP_nil, if_neg hne]
          omega
      · exact forall_mem_map_of_pres (markAnalyzing_id aid) s.alerts
          s.nextAlertId hs.alertFresh
      · intro e he
        rcases List.mem_append.mp he with he | he
        · exact Nat.lt_succ_of_lt (hs.execFresh e he)
        · rcases List.mem_singleton.mp he with rfl
          exact Nat.lt_succ_self _

lemma inv_completeExecution (s : EngineState) (eid : Nat)
    (outcome : ExecStatus) (hs : Inv s) :
    Inv (completeExecution s eid outcome) := by
  refine ⟨hs.dedup, ?_, hs.alertFresh, ?_⟩
  · intro aid
    unfold execCount completeExecution
    have := countP_map_eq_of_iff (setExecStatus eid outcome)
      (fun e => e.alertId == aid) s.executions
      fun e _ => by simp only [setExecStatus_alertId]
    simp only [this]
    exact hs.oneExec aid
  · exact forall_mem_map_of_pres (setExecStatus_id eid outcome)
      s.executions s.nextExecId hs.execFresh

lemma inv_ignoreAlert (s : EngineState) (aid : Nat) (hs : Inv s) :
    Inv (ignoreAlert s aid) := by
  refine ⟨?_, hs.oneExec, ?_, hs.execFresh⟩
  · intro pid2 cid2
    unfold activeCount ignoreAlert
    have := countP_map_eq_of_iff (ignoreAlertRec aid)
      (Alert.activeFor pid2 cid2) s.alerts
      fun a _ => ignoreAlertRec_active aid pid2 cid2 a
    simp only [this]
    exact hs.dedup pid2 cid2
  · exact forall_mem_map_of_pres (ignoreAlertRec_id aid) s.alerts
      s.nextAlertId hs.alertFresh

lemma inv_step (cfg : AgentConfig) (s : EngineState) (ev : Event)
    (hs : Inv s) : Inv (step cfg s ev) := by
  cases ev with
  | observe pid cid qty => exact inv_observe cfg s pid cid qty hs
  | start aid =>
    rcases hst : startExecution s aid with e | s2
    · have heq : step cfg s (.start aid) = s := by
        simp [step, hst]
      rw [heq]
      exact hs
    · have heq : step cfg s (.start aid) = s2 := by
        simp [step, hst]
      rw [heq]
      exact inv_startExecution s aid s2 hs hst
  | complete eid outcome => exact inv_completeExecution s eid outcome hs
  | ignore aid => exact inv_ignoreAlert s aid hs

lemma inv_foldl (cfg : AgentConfig) (evs : List Event) (s : EngineState)
    (hs : Inv s) : Inv (evs.foldl (step cfg) s) := by
  induction evs generalizing s with
  | nil => exact hs
  | cons e evs ih => exact ih _ (inv_step cfg s e hs)

/-- Every reachable engine state satisfies the invariant. -/
lemma inv_run (cfg : AgentConfig) (evs : List Event) : Inv (run cfg evs) :=
  inv_foldl cfg evs initState inv_init

/-! ## Claims about the engine state machine -/

/-- Claim C1: at every reachable engine state there is at most one
non-resolved Alert per (productId, companyId) pair, and a further breach
observation for a product that already has a non-resolved Alert leaves the
Alert ledger unchanged — no second Alert is created. -/
theorem at_most_one_active_alert (cfg : AgentConfig) (evs : List Event)
    (pid cid : Nat) (qty : Int) (hqty : qty ≤ cfg.criticalLevel) :
    activeCount (run cfg evs) pid cid ≤ 1 ∧
      ((activeAlert (run cfg evs) pid cid).isSome = true →
        (step cfg (run cfg evs) (.observe pid cid qty)).alerts =
          (run cfg evs).alerts) := by
  refine ⟨(inv_run cfg evs).dedup pid cid, fun h => ?_⟩
  have hsig : monitorSignal cfg (run cfg evs) pid cid qty = none := by
    unfold monitorSignal
    rw [if_pos hqty, if_pos h]
  show (observe cfg (run cfg evs) pid cid qty).alerts = _
  unfold observe
  rw [hsig]

/-- The configuration used by the concrete witnesses: critical level 10
(the source default). -/
def cfg10 : AgentConfig := ⟨10⟩

/-- Event sequence for the C1 witness: the stock of product 1 of company 1
drops to 8 units. -/
def evsC1 : List Event := [.observe 1 1 8]

/-- Witness for C1 at a concrete reachable state with one active Alert. -/
theorem at_most_one_active_alert_witness :
    activeCount (run cfg10 evsC1) 1 1 ≤ 1 ∧
      ((activeAlert (run cfg10 evsC1) 1 1).isSome = true →
        (step cfg10 (run cfg10 evsC1) (.observe 1 1 8)).alerts =
          (run cfg10 evsC1).alerts) :=
  at_most_one_active_alert cfg10 evsC1 1 1 8 (by decide)

/-- Claim C3: for an observation on a pair with no active Alert, the
Inventory Monitor emits a `BreachSignal` exactly when
`availableQuantity <= criticalLevel` (equality included), the signal carries
priority `critical`, and the Alert created from it has priority
`critical`. -/
theorem breach_iff_at_or_below_threshold (cfg : AgentConfig)
    (s : EngineState) (pid cid : Nat) (qty : Int)
    (hactive : activeAlert s pid cid = none) :
    (monitorSignal cfg s pid cid qty =
        some (.breach ⟨pid, cid, qty, cfg.criticalLevel, .critical⟩) ↔
      qty ≤ cfg.criticalLevel) ∧
    (qty ≤ cfg.criticalLevel →
      (observe cfg s pid cid qty).alerts =
        s.alerts ++
          [newAlert s ⟨pid, cid, qty, cfg.criticalLevel, .critical⟩] ∧
      (newAlert s ⟨pid, cid, qty, cfg.criticalLevel, .critical⟩).priority =
        .critical) := by
  have hnot : ¬((activeAlert s pid cid).isSome = true) := by
    rw [hactive]
    simp
  constructor
  · unfold monitorSignal
    by_cases hq : qty ≤ cfg.criticalLevel
    · rw [if_pos hq, if_neg hnot]
      simp [hq]
    · rw [if_neg hq, if_neg hnot]
      simp [hq]
  · intro hq
    have hsig : monitorSignal cfg s pid cid qty =
        some (.breach ⟨pid, cid, qty, cfg.criticalLevel, .critical⟩) := by
      unfold monitorSignal
      rw [if_pos hq, if_neg hnot]
    refine ⟨?_, rfl⟩
    unfold observe
    rw [hsig]

/-- Witness for C3 at the boundary: quantity 10 equals the critical level
10 and still triggers a breach. -/
theorem breach_iff_at_or_below_threshold_witness :
    (monitorSignal cfg10 initState 2 3 10 =
        some (.breach ⟨2, 3, 10, cfg10.criticalLevel, .critical⟩) ↔
      (10 : Int) ≤ cfg10.criticalLevel) ∧
    ((10 : Int) ≤ cfg10.criticalLevel →
      (observe cfg10 initState 2 3 10).alerts =
        initState.alerts ++
          [newAlert initState ⟨2, 3, 10, cfg10.criticalLevel, .critical⟩] ∧
      (newAlert initState
        ⟨2, 3, 10, cfg10.criticalLevel, .critical⟩).priority = .critical) :=
  breach_iff_at_or_below_threshold cfg10 initState 2 3 10 (by decide)

/-- Claim C4: recording a terminal Execution outcome leaves the Alert ledger
unchanged (the Orchestrator never resolves the Alert); a recovery
observation leaves the Execution ledger unchanged while a matching
`analyzing` Alert resolves; a terminal outcome recorded after the recovery
yields the same Execution ledger as without the recovery (the running
Execution still reaches its own terminal status); and a breach observation
never removes or modifies an existing Alert. -/
theorem completion_and_recovery_frame (cfg : AgentConfig) (s : EngineState)
    (eid : Nat) (outcome : ExecStatus) (pid cid : Nat) (qty : Int)
    (hrec : cfg.criticalLevel < qty) :
    (completeExecution s eid outcome).alerts = s.alerts ∧
    (observe cfg s pid cid qty).executions = s.executions ∧
    (∀ eid2 o2,
      (completeExecution (observe cfg s pid cid qty) eid2 o2).executions =
        (completeExecution s eid2 o2).executions) ∧
    (∀ a : Alert, a.productId = pid → a.companyId = cid →
      a.status = .analyzing → (resolveAlert pid cid a).status = .resolved) ∧
    (∀ qty2 : Int, qty2 ≤ cfg.criticalLevel →
      ∀ a ∈ s.alerts, a ∈ (observe cfg s pid cid qty2).alerts) := by
  have hexec : ∀ q : Int,
      (observe cfg s pid cid q).executions = s.executions := by
    intro q
    rcases hm : monitorSignal cfg s pid cid q with _ | sig
    · unfold observe
      rw [hm]
    · rcases sig with b | ⟨p, c⟩
      · unfold observe
        rw [hm]
      · unfold observe
        rw [hm]
  refine ⟨rfl, hexec qty, ?_, ?_, ?_⟩
  · intro eid2 o2
    simp only [completeExecution, hexec qty]
  · intro a h1 h2 h3
    have hc : (a.productId == pid && a.companyId == cid &&
        (a.status == .detected || a.status == .analyzing)) = true := by
      simp [h1, h2, h3]
    unfold resolveAlert
    rw [if_pos hc]
  · intro qty2 hq2 a ha
    by_cases hact : (activeAlert s pid cid).isSome = true
    · have hm : monitorSignal cfg s pid cid qty2 = none := by
        unfold monitorSignal
        rw [if_pos hq2, if_pos hact]
      unfold observe
      rw [hm]
      exact ha
    · have hm : monitorSignal cfg s pid cid qty2 =
          some (.breach ⟨pid, cid, qty2, cfg.criticalLevel, .critical⟩) := by
        unfold monitorSignal
        rw [if_pos hq2, if_neg hact]
      unfold observe
      rw [hm]
      exact List.mem_append_left _ ha

/-- Concrete state for the C4 witness: one `analyzing` Alert for product 1
of company 1 with a running Execution. -/
def stC4 : EngineState :=
  ⟨[⟨0, 1, 1, .critical, .analyzing, 8, 10⟩], [⟨0, 0, .running⟩], 1, 1⟩

/-- Witness for C4: stock of product 1 rises to 30 while the Execution is
running. -/
theorem completion_and_recovery_frame_witness :
    (completeExecution stC4 0 .completed).alerts = stC4.alerts ∧
    (observe cfg10 stC4 1 1 30).executions = stC4.executions ∧
    (∀ eid2 o2,
      (completeExecution (observe cfg10 stC4 1 1 30) eid2 o2).executions =
        (completeExecution stC4 eid2 o2).executions) ∧
    (∀ a : Alert, a.productId = 1 → a.companyId = 1 →
      a.status = .analyzing → (resolveAlert 1 1 a).status = .resolved) ∧
    (∀ qty2 : Int, qty2 ≤ cfg10.criticalLevel →
      ∀ a ∈ stC4.alerts, a ∈ (observe cfg10 stC4 1 1 qty2).alerts) :=
  completion_and_recovery_frame cfg10 stC4 0 .completed 1 1 30 (by decide)

/-- Claim C7: at every reachable state every Alert has at most one
Execution; invoking the Orchestrator for an Alert that already has an
Execution fails with `ExecutionAlreadyExistsError` and leaves the state
unchanged, so no new Execution is created; Execution ids are fresh; and an
Alert created by a new breach has an id different from every existing
Alert's — a resolved-then-rebreached product gets a new Alert (whose
Execution is then a new record) rather than a reused one. -/
theorem one_execution_per_alert (cfg : AgentConfig) (evs : List Event)
    (aid : Nat) (hex : hasExecutionFor (run cfg evs) aid = true) :
    execCount (run cfg evs) aid ≤ 1 ∧
    startExecution (run cfg evs) aid = .error .executionAlreadyExists ∧
    step cfg (run cfg evs) (.start aid) = run cfg evs ∧
    (∀ e ∈ (run cfg evs).executions, e.id < (run cfg evs).nextExecId) ∧
    (∀ b : BreachSignal, ∀ a ∈ (run cfg evs).alerts,
      a.id ≠ (newAlert (run cfg evs) b).id) := by
  have hinv := inv_run cfg evs
  have herr : startExecution (run cfg evs) aid =
      .error .executionAlreadyExists := by
    unfold startExecution
    rw [if_pos hex]
  refine ⟨hinv.oneExec aid, herr, ?_, hinv.execFresh, ?_⟩
  · simp [step, herr]
  · intro b a ha
    have := hinv.alertFresh a ha
    show a.id ≠ (run cfg evs).nextAlertId
    omega

/-- Event sequence for the C7 witness: a breach creates Alert 0 and the
Orchestrator is invoked for it, creating Execution 0. -/
def evsC7 : List Event := [.observe 1 1 5, .start 0]

/-- Witness for C7: re-invoking the Orchestrator for Alert 0 is rejected. -/
theorem one_execution_per_alert_witness :
    execCount (run cfg10 evsC7) 0 ≤ 1 ∧
    startExecution (run cfg10 evsC7) 0 = .error .executionAlreadyExists ∧
    step cfg10 (run cfg10 evsC7) (.start 0) = run cfg10 evsC7 ∧
    (∀ e ∈ (run cfg10 evsC7).executions,
      e.id < (run cfg10 evsC7).nextExecId) ∧
    (∀ b : BreachSignal, ∀ a ∈ (run cfg10 evsC7).alerts,
      a.id ≠ (newAlert (run cfg10 evsC7) b).id) :=
  one_execution_per_alert cfg10 evsC7 0 (by decide)

/-! ## Overall Execution status (C2) -/

/-- WorkflowStep statuses (spec §3). -/
inductive StepStatus
  | pending
  | running
  | completed
  | failed
  deriving Repr, DecidableEq

/-- A step status is terminal when the step has finished; a timed-out
sub-step is recorded as `failed` with a timeout-classified error. -/
def StepStatus.terminal : StepStatus → Bool
  | .completed => true
  | .failed => true
  | _ => false

/-- Modelled from the spec (§4.5): once every stage-3 sub-step has reached a
terminal state, the Orchestrator's fan-in computes the Execution's overall
status: `completed` when all sub-steps succeeded, `failed` when every
sub-step failed, `partial_success` otherwise. -/
def overallStatus (steps : List StepStatus) : ExecStatus :=
  if steps.all (· == .completed) then .completed
  else if steps.all (· == .failed) then .failed
  else .partialSuccess

/-- Claim C2: for a nonempty list of terminal sub-step statuses, the overall
Execution status is `completed` iff every step completed, `failed` iff every
step failed, and `partial_success` exactly in the remaining combinations
(at least one step succeeded and at least one failed or timed out). -/
theorem overall_status_characterization (steps : List StepStatus)
    (hne : steps ≠ []) (hterm : ∀ st ∈ steps, st.terminal = true) :
    (overallStatus steps = .completed ↔ ∀ st ∈ steps, st = .completed) ∧
    (overallStatus steps = .failed ↔ ∀ st ∈ steps, st = .failed) ∧
    (overallStatus steps = .partialSuccess ↔
      (∃ st ∈ steps, st = .completed) ∧ ∃ st ∈ steps, st = .failed) := by
  have hterm2 : ∀ st ∈ steps, st = .completed ∨ st = .failed := by
    intro st hst
    have := hterm st hst
    cases st <;> simp [StepStatus.terminal] at this ⊢
  obtain ⟨s0, hs0⟩ := List.exists_mem_of_ne_nil steps hne
  unfold overallStatus
  by_cases hA : steps.all (· == .completed) = true
  · rw [if_pos hA]
    have hall : ∀ st ∈ steps, st = .completed := by
      intro st hst
      have := List.all_eq_true.mp hA st hst
      exact eq_of_beq (by simpa using this)
    refine ⟨iff_of_true rfl hall, ?_, ?_⟩
    · refine ⟨fun h => absurd h (by simp), fun h => ?_⟩
      have h2 := h s0 hs0
      rw [hall s0 hs0] at h2
      exact absurd h2 (by simp)
    · refine ⟨fun h => absurd h (by simp), ?_⟩
      rintro ⟨_, st, hst, hfail⟩
      rw [hall st hst] at hfail
      exact absurd hfail (by simp)
  · rw [if_neg hA]
    have hexf : ∃ st ∈ steps, st = .failed := by
      have hcon : ¬∀ st ∈ steps, (st == .completed) = true := fun hcon =>
        hA (List.all_eq_true.mpr hcon)
      push_neg at hcon
      obtain ⟨st, hst, hnc⟩ := hcon
      rcases hterm2 st hst with rfl | rfl
      · exact absurd (by decide) hnc
      · exact ⟨.failed, hst, rfl⟩
    by_cases hB : steps.all (· == .failed) = true
    · rw [if_pos hB]
      have hallf : ∀ st ∈ steps, st = .failed := by
        intro st hst
        have := List.all_eq_true.mp hB st hst
        exact eq_of_beq (by simpa using this)
      refine ⟨?_, iff_of_true rfl hallf, ?_⟩
      · refine ⟨fun h => absurd h (by simp), fun h => ?_⟩
        have h2 := h s0 hs0
        rw [hallf s0 hs0] at h2
        exact absurd h2 (by simp)
      · refine ⟨fun h => absurd h (by simp), ?_⟩
        rintro ⟨⟨st, hst, hcomp⟩, _⟩
        rw [hallf st hst] at hcomp
        exact absurd hcomp (by simp)
    · rw [if_neg hB]
      have hexc : ∃ st ∈ steps, st = .completed := by
        have hcon : ¬∀ st ∈ steps, (st == .failed) = true := fun hcon =>
          hB (List.all_eq_true.mpr hcon)
        push_neg at hcon
        obtain ⟨st, hst, hnf⟩ := hcon
        rcases hterm2 st hst with rfl | rfl
        · exact ⟨.completed, hst, rfl⟩
        · exact absurd (by decide) hnf
      refine ⟨?_, ?_, fun _ => ⟨hexc, hexf⟩, fun _ => rfl⟩
      · refine ⟨fun h => absurd h (by simp), fun h => ?_⟩
        exact absurd
          (List.all_eq_true.mpr fun st hst => by rw [h st hst]; decide) hA
      · refine ⟨fun h => absurd h (by simp), fun h => ?_⟩
        exact absurd
          (List.all_eq_true.mpr fun st hst => by rw [h st hst]; decide) hB

/-- The sub-step outcome combination used by the C2 witness: one provider
failed while the two others succeeded. -/
def stepsC2 : List StepStatus := [.completed, .failed, .completed]

/-- Witness for C2 on a concrete one-failure combination. -/
theorem overall_status_characterization_witness :
    (overallStatus stepsC2 = .completed ↔ ∀ st ∈ stepsC2, st = .completed) ∧
    (overallStatus stepsC2 = .failed ↔ ∀ st ∈ stepsC2, st = .failed) ∧
    (overallStatus stepsC2 = .partialSuccess ↔
      (∃ st ∈ stepsC2, st = .completed) ∧ ∃ st ∈ stepsC2, st = .failed) :=
  overall_status_characterization stepsC2 (by decide) (by decide)

/-! ## Solution Planner (C6) -/

/-- The closed root-cause enumeration of the Diagnostic Engine (spec
§4.3). -/
inductive RootCause
  | demand_surge
  | supplier_delay
  | forecast_miss
  | unknown
  deriving Repr, DecidableEq

/-- A diagnosis (spec §4.3): scored root cause with confidence in `[0, 1]`
and supporting metrics. -/
structure Diagnosis where
  rootCause : RootCause
  confidence : ℚ
  supportingMetrics : List (String × ℚ)
  deriving Repr, DecidableEq

/-- The planner's view of the alerted product: required level, current
inventory, and the configured base safety stock. -/
structure PlannerInput where
  requiredLevel : Int
  currentInventory : Int
  baseSafetyStock : Nat
  deriving Repr, DecidableEq

/-- Modelled from the spec (§4.4): the safety-stock adjustment scales up
when the root cause is `demand_surge` and toward zero when it is `unknown`
(conservative default ordering when the cause is unclear). -/
def safetyStockAdjustment (base : Nat) : RootCause → Nat
  | .demand_surge => 2 * base
  | .unknown => 0
  | _ => base

/-- A replenishment plan (spec §4.4). -/
structure ReplenishmentPlan where
  totalQuantity : Int
  sourcingSplits : List (String × Int)
  expectedDeliveryDays : Nat
  actionItems : List String
  deriving Repr, DecidableEq

/-- The default supplier used when sourcing degrades to a single source. -/
def defaultSupplier : String := "default supplier"

/-- Modelled from the spec (§4.4): `plan` computes `totalQuantity` as
`max(0, requiredLevel - currentInventory) + safetyStockAdjustment`, degrades
the sourcing split to the single default supplier when `confidence = 0`,
and — being a total function of its inputs — never fails: on missing data
(zero-confidence `unknown` diagnosis) it still returns the minimal safe
plan instead of erroring. -/
def plan (inp : PlannerInput) (d : Diagnosis) : ReplenishmentPlan :=
  let deficit : Int := max 0 (inp.requiredLevel - inp.currentInventory)
  let adj : Int := (safetyStockAdjustment inp.baseSafetyStock d.rootCause : Int)
  let total := deficit + adj
  { totalQuantity := total
    sourcingSplits :=
      if d.confidence = 0 then [(defaultSupplier, total)]
      else [("primary supplier", total - total / 5),
            ("backup supplier", total / 5)]
    expectedDeliveryDays := if d.rootCause = .demand_surge then 3 else 7
    actionItems := ["create replenishment order"] }

/-- Claim C6: `plan` is total (it returns a `ReplenishmentPlan` for every
input), its `totalQuantity` equals
`max 0 (requiredLevel - currentInventory) + safetyStockAdjustment`, the
quantity is never negative, and a zero-confidence diagnosis degrades to the
single-default-supplier split. -/
theorem plan_total_and_nonneg (inp : PlannerInput) (d : Diagnosis) :
    (plan inp d).totalQuantity =
      max 0 (inp.requiredLevel - inp.currentInventory) +
        (safetyStockAdjustment inp.baseSafetyStock d.rootCause : Int) ∧
    0 ≤ (plan inp d).totalQuantity ∧
    (d.confidence = 0 →
      (plan inp d).sourcingSplits =
        [(defaultSupplier, (plan inp d).totalQuantity)]) := by
  refine ⟨rfl, ?_, ?_⟩
  · have h1 : (0 : Int) ≤ max 0 (inp.requiredLevel - inp.currentInventory) :=
      le_max_left 0 _
    have h2 : (0 : Int) ≤
        (safetyStockAdjustment inp.baseSafetyStock d.rootCause : Int) :=
      Int.natCast_nonneg _
    exact add_nonneg h1 h2
  · intro h
    simp [plan, h]

/-- Witness for C6 on a zero-confidence `unknown` diagnosis (the
missing-data degradation path). -/
theorem plan_total_and_nonneg_witness :
    (plan ⟨20, 8, 5⟩ ⟨.unknown, 0, []⟩).totalQuantity =
      max 0 ((20 : Int) - 8) + (safetyStockAdjustment 5 .unknown : Int) ∧
    0 ≤ (plan ⟨20, 8, 5⟩ ⟨.unknown, 0, []⟩).totalQuantity ∧
    ((⟨.unknown, 0, []⟩ : Diagnosis).confidence = 0 →
      (plan ⟨20, 8, 5⟩ ⟨.unknown, 0, []⟩).sourcingSplits =
        [(defaultSupplier, (plan ⟨20, 8, 5⟩ ⟨.unknown, 0, []⟩).totalQuantity)]) :=
  plan_total_and_nonneg ⟨20, 8, 5⟩ ⟨.unknown, 0, []⟩

/-! ## Diagnostic Engine (C8) -/

/-- One point of the consumption history read by the Diagnostic Engine
(spec §6: `readHistory(productId, windowDays) -> series of
(date, consumed, forecast)`). -/
structure HistoryPoint where
  date : Nat
  consumed : ℚ
  forecast : ℚ
  deriving Repr, DecidableEq

/-- The alert-side input of `diagnose`: the alerted product's current
inventory and whether a pending replenishment order is delayed. -/
structure DiagnosisInput where
  alertId : Nat
  currentInventory : Int
  pendingOrderDelayed : Bool
  deriving Repr, DecidableEq

/-- Clamping a score into the confidence interval `[0, 1]`. -/
def clamp01 (x : ℚ) : ℚ := min 1 (max 0 x)

/-- Modelled from the spec (§4.3): `diagnose` combines the consumption-rate
deviation from the trailing average, the deviation from forecast, and the
presence of delayed pending orders with fixed policy weights; insufficient
history yields `unknown` with confidence `0`.  The model is a pure function
of its two arguments and takes no randomness source — exactly the
determinism the spec requires. -/
def diagnose (inp : DiagnosisInput) (history : List HistoryPoint) :
    Diagnosis :=
  if history.length < 2 then ⟨.unknown, 0, []⟩
  else
    let n : ℚ := history.length
    let avg := (history.foldl (fun acc p => acc + p.consumed) 0) / n
    let recent := (history.getLastD ⟨0, 0, 0⟩).consumed
    let consumptionDev := recent - avg
    let forecastDev :=
      (history.foldl (fun acc p => acc + (p.consumed - p.forecast)) 0) / n
    let metrics := [("avg_consumption", avg), ("recent_consumption", recent),
      ("forecast_gap", forecastDev)]
    if inp.pendingOrderDelayed then
      ⟨.supplier_delay, clamp01 (7 / 10), metrics⟩
    else if 0 < consumptionDev then
      ⟨.demand_surge,
        clamp01 ((3 / 5) * consumptionDev / (avg + 1) + (2 / 5)), metrics⟩
    else if 0 < forecastDev then
      ⟨.forecast_miss, clamp01 ((1 / 2) * forecastDev / (avg + 1)), metrics⟩
    else ⟨.unknown, 0, metrics⟩

/-- Claim C8: `diagnose` is deterministic — two calls on equal inputs
return equal `Diagnosis` values: same root cause, same confidence, same
supporting metrics.  The model has no hidden randomness: its output is a
function of the alert input and the history alone. -/
theorem diagnose_deterministic (inp1 inp2 : DiagnosisInput)
    (h1 h2 : List HistoryPoint) (hinp : inp1 = inp2) (hh : h1 = h2) :
    diagnose inp1 h1 = diagnose inp2 h2 ∧
    (diagnose inp1 h1).rootCause = (diagnose inp2 h2).rootCause ∧
    (diagnose inp1 h1).confidence = (diagnose inp2 h2).confidence ∧
    (diagnose inp1 h1).supportingMetrics =
      (diagnose inp2 h2).supportingMetrics := by
  subst hinp
  subst hh
  exact ⟨rfl, rfl, rfl, rfl⟩

/-- History used by the C8 witness: two identical reads of the same
series. -/
def histC8 : List HistoryPoint := [⟨1, 10, 9⟩, ⟨2, 14, 9⟩, ⟨3, 20, 10⟩]

/-- Witness for C8: repeated diagnosis of the same concrete history. -/
theorem diagnose_deterministic_witness :
    diagnose ⟨42, 8, false⟩ histC8 = diagnose ⟨42, 8, false⟩ histC8 ∧
    (diagnose ⟨42, 8, false⟩ histC8).rootCause =
      (diagnose ⟨42, 8, false⟩ histC8).rootCause ∧
    (diagnose ⟨42, 8, false⟩ histC8).confidence =
      (diagnose ⟨42, 8, false⟩ histC8).confidence ∧
    (diagnose ⟨42, 8, false⟩ histC8).supportingMetrics =
      (diagnose ⟨42, 8, false⟩ histC8).supportingMetrics :=
  diagnose_deterministic ⟨42, 8, false⟩ ⟨42, 8, false⟩ histC8 histC8 rfl rfl

/-! ## Stage ordering (C5) -/

/-- Statuses of a step in the frontend `AnimatedWorkflow` component. -/
inductive AnimStatus
  | pending
  | active
  | completed
  deriving Repr, DecidableEq

/-- The status assignment of `AnimatedWorkflow.runWorkflow`, from the
frontend source:
`index === currentStep ? active : index < currentStep ? completed :
pending`. -/
def animStepStatus (currentStep index : Nat) : AnimStatus :=
  if index = currentStep then .active
  else if index < currentStep then .completed
  else .pending

/-- The ids of the five animated workflow steps, in source order. -/
def animStepIds : List Nat := [1, 2, 3, 4, 5]

/-- A WorkflowStep record as the Execution ledger stores it: its
`stepNumber` and its start and completion instants (abstract ticks). -/
structure RecordedStep where
  stepNumber : Nat
  startedAt : Nat
  completedAt : Nat
  deriving Repr, DecidableEq

/-- Modelled from the spec (§4.5 and §5), the backend Orchestrator being
absent from the snapshot: the WorkflowSteps one Execution records.  Stage 1
`root_cause_analysis` is stepNumber 1; stage 2 `optimization` (stepNumber
2) starts only after stage 1 completes; the stage-3 provider sub-steps
(stepNumbers 3, 4, …) all start only after stage 2 completes and run
concurrently with a common start tick. -/
def recordedSteps (numProviders : Nat) : List RecordedStep :=
  ⟨1, 0, 1⟩ :: ⟨2, 2, 3⟩ ::
    (List.range numProviders).map (fun i => ⟨3 + i, 4, 5⟩)

lemma mem_recordedSteps (n : Nat) (s : RecordedStep) (hs : s ∈ recordedSteps n) :
    s = ⟨1, 0, 1⟩ ∨ s = ⟨2, 2, 3⟩ ∨ ∃ i, s = ⟨3 + i, 4, 5⟩ := by
  rcases List.mem_cons.mp hs with rfl | hs2
  · exact Or.inl rfl
  rcases List.mem_cons.mp hs2 with rfl | hs3
  · exact Or.inr (Or.inl rfl)
  obtain ⟨i, _, rfl⟩ := List.mem_map.mp hs3
  exact Or.inr (Or.inr ⟨i, rfl⟩)

/-- Claim C5: a later workflow step leaves `pending` only once every
earlier step is `completed` (the frontend `AnimatedWorkflow` status
assignment); the animated step ids are strictly increasing; and in the
recorded Execution ledger stage 1 completes strictly before stage 2 starts,
stage 2 completes strictly before every stage-3 sub-step starts, and the
recorded stepNumbers are strictly increasing in stage order. -/
theorem stage_ordering (n currentStep i j : Nat) (hij : i < j)
    (hj : animStepStatus currentStep j ≠ .pending) :
    animStepStatus currentStep i = .completed ∧
    List.Chain' (· < ·) animStepIds ∧
    (∀ s ∈ recordedSteps n, s.stepNumber = 1 →
      ∀ t ∈ recordedSteps n, 2 ≤ t.stepNumber →
        s.completedAt < t.startedAt) ∧
    (∀ s ∈ recordedSteps n, s.stepNumber = 2 →
      ∀ t ∈ recordedSteps n, 3 ≤ t.stepNumber →
        s.completedAt < t.startedAt) ∧
    List.Chain' (· < ·) ((recordedSteps n).map RecordedStep.stepNumber) := by
  have hjc : j ≤ currentStep := by
    by_contra hlt
    push_neg at hlt
    apply hj
    unfold animStepStatus
    rw [if_neg (by omega), if_neg (by omega)]
  have hanim : List.Chain' (· < ·) animStepIds := by
    unfold animStepIds
    simp [List.chain'_cons]
  refine ⟨?_, hanim, ?_, ?_, ?_⟩
  · unfold animStepStatus
    rw [if_neg (by omega), if_pos (by omega)]
  · intro s hs h1 t ht h2
    rcases mem_recordedSteps n s hs with rfl | rfl | ⟨k, rfl⟩
    · rcases mem_recordedSteps n t ht with rfl | rfl | ⟨m, rfl⟩
      · simp at h2
      · decide
      · show (1 : Nat) < 4
        omega
    · simp at h1
    · simp at h1
      omega
  · intro s hs h1 t ht h2
    rcases mem_recordedSteps n s hs with rfl | rfl | ⟨k, rfl⟩
    · simp at h1
    · rcases mem_recordedSteps n t ht with rfl | rfl | ⟨m, rfl⟩
      · simp at h2
      · simp at h2
      · show (3 : Nat) < 4
        omega
    · simp at h1
      omega
  · have hmap : (recordedSteps n).map RecordedStep.stepNumber =
        1 :: 2 :: (List.range n).map (fun i => 3 + i) := by
      simp [recordedSteps, Function.comp]
    rw [hmap]
    refine List.Pairwise.chain' ?_
    refine List.Pairwise.cons ?_ (List.Pairwise.cons ?_ ?_)
    · intro b hb
      rcases List.mem_cons.mp hb with rfl | hb2
      · omega
      · obtain ⟨m, _, rfl⟩ := List.mem_map.mp hb2
        omega
    · intro b hb
      obtain ⟨m, _, rfl⟩ := List.mem_map.mp hb
      omega
    · refine List.Pairwise.map _ ?_ (List.pairwise_lt_range n)
      intro a b hab
      omega

/-- Witness for C5: with the animation on step 2, step 1 (index 0) is
completed once step 2 (index 1) has started, over a two-provider recorded
Execution. -/
theorem stage_ordering_witness :
    animStepStatus 2 0 = .completed ∧
    List.Chain' (· < ·) animStepIds ∧
    (∀ s ∈ recordedSteps 2, s.stepNumber = 1 →
      ∀ t ∈ recordedSteps 2, 2 ≤ t.stepNumber →
        s.completedAt < t.startedAt) ∧
    (∀ s ∈ recordedSteps 2, s.stepNumber = 2 →
      ∀ t ∈ recordedSteps 2, 3 ≤ t.stepNumber →
        s.completedAt < t.startedAt) ∧
    List.Chain' (· < ·) ((recordedSteps 2).map RecordedStep.stepNumber) :=
  stage_ordering 2 2 0 1 (by decide) (by decide)

end SupplyChain
